import Mathlib

/-!
Verification of the interactive git-assistant core in `src/modes.rs`.

The embedding models text as `List Char` where we reason about Rust's
`str::split` / `str::trim` (the commit-type editing logic of
`handle_commit_message`), and as `String` for the report formatter and the
contributor browse loop.  The interactive loops are embedded as interpreters
over explicit input lists: the successive results of the generation backend
and the successive indices returned by `ui::show_selection_menu`.  Each
interpreter also returns the trace of observable events (backend calls and
`git::stage_and_commit` invocations), which the temporal claims quantify over.
-/

set_option maxHeartbeats 1000000

/-- Rust `s.split(sep)` for a one-character pattern: splits at every
occurrence of `sep`, yielding `n + 1` (possibly empty) pieces for `n`
separators.  `"".split(sep)` yields one empty piece. -/
def splitOnChar (sep : Char) : List Char → List (List Char)
  | [] => [[]]
  | c :: cs =>
    let rest := splitOnChar sep cs
    if c = sep then [] :: rest
    else (c :: rest.headD []) :: rest.tail

/-- Rust `str::trim`: remove leading and trailing whitespace. -/
def trimChars (s : List Char) : List Char :=
  ((s.dropWhile Char.isWhitespace).reverse.dropWhile Char.isWhitespace).reverse

/-- `src/modes.rs` lines 60–62 (the `Edit commit type` branch of
`handle_commit_message`):

    let description = commit_message.split(':').nth(1).unwrap_or(&commit_message).trim();
    let new_message = format!("{}: {}", selected_type, description);

`(splitOnChar ':' msg).getD 1 msg` is `split(':').nth(1).unwrap_or(&msg)`. -/
def editType (commit_message selected_type : List Char) : List Char :=
  selected_type ++ ':' :: ' ' :: trimChars ((splitOnChar ':' commit_message).getD 1 commit_message)

/-- `types[type_idx].split(':').next().unwrap()` — the token before the first
colon of a commit-type menu entry. -/
def typeToken (t : List Char) : List Char :=
  (splitOnChar ':' t).headD []

/-- The `types` array presented by the `Edit commit type` menu. -/
def commitTypes : List (List Char) :=
  ["feat: ✨ New feature".data,
   "fix: 🐛 Bug fix".data,
   "docs: 📚 Documentation".data,
   "style: 💅 Formatting".data,
   "refactor: ♻️ Code restructure".data,
   "test: 🧪 Testing".data,
   "chore: 🔧 Maintenance".data]

theorem splitOnChar_ne_nil (sep : Char) (s : List Char) : splitOnChar sep s ≠ [] := by
  cases s with
  | nil => simp [splitOnChar]
  | cons c cs =>
    simp only [splitOnChar]
    split <;> simp

theorem splitOnChar_of_not_mem {sep : Char} {s : List Char} (h : sep ∉ s) :
    splitOnChar sep s = [s] := by
  induction s with
  | nil => rfl
  | cons c cs ih =>
    simp only [List.mem_cons, not_or] at h
    have hc : ¬c = sep := fun hc => h.1 hc.symm
    simp [splitOnChar, ih h.2, hc]

theorem splitOnChar_append (sep : Char) (a r : List Char) (h : sep ∉ a) :
    splitOnChar sep (a ++ sep :: r) = a :: splitOnChar sep r := by
  induction a with
  | nil => simp [splitOnChar]
  | cons c a' ih =>
    simp only [List.mem_cons, not_or] at h
    have hc : ¬c = sep := fun hc => h.1 hc.symm
    simp [splitOnChar, ih h.2, hc]

/-- C4: a draft with no colon delimiter is carried over whole (after `trim`)
as the description of the edited message. -/
theorem editType_no_colon (msg ty : List Char) (h : ':' ∉ msg) :
    editType msg ty = ty ++ ':' :: ' ' :: trimChars msg := by
  simp [editType, splitOnChar_of_not_mem h]

/-- C4 witness: `"improve performance overall"` type-edited to `"chore"` gives
exactly `"chore: improve performance overall"`. -/
theorem editType_no_colon_witness :
    ':' ∉ "improve performance overall".data ∧
      editType "improve performance overall".data "chore".data =
        "chore: improve performance overall".data :=
  ⟨by decide, by
    rw [editType_no_colon "improve performance overall".data "chore".data (by decide)]
    decide⟩

/-- C1 counterexample: on the draft `"feat: add retry: with backoff"` the
type edit to `"fix"` does NOT carry everything after the first colon; it
produces `"fix: add retry"`, dropping `": with backoff"`. -/
theorem editType_counterexample :
    editType "feat: add retry: with backoff".data "fix".data ≠
        "fix: add retry: with backoff".data ∧
      editType "feat: add retry: with backoff".data "fix".data = "fix: add retry".data := by
  constructor
  · decide
  · decide

/-- C1 (amended): for a draft containing exactly one colon delimiter, the type
edit replaces only the type token: the result is the selected type, a colon,
a single space, and the text after the delimiter trimmed of surrounding
whitespace, otherwise unchanged. -/
theorem editType_single_colon (a b ty : List Char) (ha : ':' ∉ a) (hb : ':' ∉ b) :
    editType (a ++ ':' :: b) ty = ty ++ ':' :: ' ' :: trimChars b := by
  simp [editType, splitOnChar_append ':' a b ha, splitOnChar_of_not_mem hb]

/-- C1 witness: `"feat: add retry logic"` type-edited to `"fix"` yields
exactly `"fix: add retry logic"`. -/
theorem editType_single_colon_witness :
    (':' ∉ "feat".data ∧ ':' ∉ " add retry logic".data) ∧
      editType "feat: add retry logic".data "fix".data = "fix: add retry logic".data :=
  ⟨⟨by decide, by decide⟩, by
    have h := editType_single_colon "feat".data " add retry logic".data "fix".data
      (by decide) (by decide)
    have hs : "feat: add retry logic".data = "feat".data ++ ':' :: " add retry logic".data := by
      decide
    rw [hs, h]
    decide⟩

/-- C9: when the draft holds two or more colons, the description of the edited
message is exactly the trimmed text strictly between the first and the second
colon; everything from the second colon on is dropped. -/
theorem editType_two_colons (a b c ty : List Char) (ha : ':' ∉ a) (hb : ':' ∉ b) :
    editType (a ++ ':' :: (b ++ ':' :: c)) ty = ty ++ ':' :: ' ' :: trimChars b := by
  have h2 := splitOnChar_append ':' a (b ++ ':' :: c) ha
  simp [editType, h2, splitOnChar_append ':' b c hb]

/-- C9 witness: `"feat: add retry: with backoff"` type-edited to `"fix"` gives
`"fix: add retry"` — the trailing `": with backoff"` is dropped. -/
theorem editType_two_colons_witness :
    (':' ∉ "feat".data ∧ ':' ∉ " add retry".data) ∧
      editType "feat: add retry: with backoff".data "fix".data = "fix: add retry".data :=
  ⟨⟨by decide, by decide⟩, by
    have h := editType_two_colons "feat".data " add retry".data " with backoff".data
      "fix".data (by decide) (by decide)
    have hs : "feat: add retry: with backoff".data =
        "feat".data ++ ':' :: (" add retry".data ++ ':' :: " with backoff".data) := by
      decide
    rw [hs, h]
    decide⟩

/-- Observable events of the commit-message refinement state machine:
backend invocations (`generate_with_spinner`), menu selections, and
`git::stage_and_commit` invocations; `cleanStatus` is the benign
"working directory is clean" report. -/
inductive Event where
  | genCalled : Event
  | mainChoice : Nat → Event
  | typeChosen : Nat → Event
  | confirmChoice : Nat → Event
  | commit : List Char → Event
  | cleanStatus : Event
deriving DecidableEq, Repr

/-- The `loop` of `handle_commit_message` (src/modes.rs lines 36–89) as an
interpreter.  Inputs: `scr` is the result `git::stage_and_commit` would
return if invoked; `gens` lists the successive results of
`config.generate_commit_message`; the `List Nat` argument lists the
successive indices returned by `ui::show_selection_menu` (main menu, then —
inside the `Edit commit type` branch — the type menu and the confirmation
menu).  The menu only ever returns an index below the option count; input
shapes it cannot produce (exhausted lists) end the run with a distinguished
model error.  Returns the flow's result and the event trace. -/
def commitLoop (scr : Except String Unit) :
    List (Except String (List Char)) → List Nat → Except String Unit × List Event
  | [], _ => (Except.error "model: out of input", [])
  | Except.error e :: _, _ => (Except.error e, [Event.genCalled])
  | Except.ok _ :: _, [] => (Except.error "model: out of input", [Event.genCalled])
  | Except.ok _ :: gs, 0 :: cs =>
      let r := commitLoop scr gs cs
      (r.1, Event.genCalled :: Event.mainChoice 0 :: r.2)
  | Except.ok _ :: _, [1] =>
      (Except.error "model: out of input", [Event.genCalled, Event.mainChoice 1])
  | Except.ok _ :: _, [1, tIdx] =>
      (Except.error "model: out of input",
        [Event.genCalled, Event.mainChoice 1, Event.typeChosen tIdx])
  | Except.ok msg :: _, 1 :: tIdx :: 0 :: _ =>
      (scr, [Event.genCalled, Event.mainChoice 1, Event.typeChosen tIdx,
             Event.confirmChoice 0,
             Event.commit (editType msg (typeToken (commitTypes.getD tIdx [])))])
  | Except.ok _ :: gs, 1 :: tIdx :: 1 :: cs =>
      let r := commitLoop scr gs cs
      (r.1, Event.genCalled :: Event.mainChoice 1 :: Event.typeChosen tIdx ::
            Event.confirmChoice 1 :: r.2)
  | Except.ok _ :: _, 1 :: tIdx :: (cc + 2) :: _ =>
      (Except.ok (), [Event.genCalled, Event.mainChoice 1, Event.typeChosen tIdx,
                      Event.confirmChoice (cc + 2)])
  | Except.ok msg :: _, 2 :: _ =>
      (scr, [Event.genCalled, Event.mainChoice 2, Event.commit msg])
  | Except.ok _ :: _, (c + 3) :: _ =>
      (Except.ok (), [Event.genCalled, Event.mainChoice (c + 3)])

/-- `handle_commit_message` (src/modes.rs lines 33–101): on `get_diff`
success run the refinement loop; on failure, the error is benign exactly
when its display text is `"No changes to commit"`, in which case a clean
status is reported and the flow succeeds. -/
def handle_commit_message (diffRes : Except String String) (scr : Except String Unit)
    (gens : List (Except String (List Char))) (choices : List Nat) :
    Except String Unit × List Event :=
  match diffRes with
  | Except.ok _ => commitLoop scr gens choices
  | Except.error e =>
      if e = "No changes to commit" then (Except.ok (), [Event.cleanStatus])
      else (Except.error e, [])

/-- Number of `stage_and_commit` invocations recorded in a trace. -/
def countCommits : List Event → Nat
  | [] => 0
  | Event.commit _ :: rest => countCommits rest + 1
  | _ :: rest => countCommits rest

/-- The two `Confirm` selections: `Stage and commit` on the main menu
(index 2) and `Confirm and commit` on the nested confirmation menu
(index 0). -/
def isConfirmEvent : Event → Bool
  | Event.mainChoice 2 => true
  | Event.confirmChoice 0 => true
  | _ => false

/-- Every `commit` event in the trace is immediately preceded by a
`Confirm` selection (`prev` is the event just before the list's head). -/
def commitsAfterConfirm (prev : Option Event) : List Event → Bool
  | [] => true
  | e :: rest =>
      (match e with
       | Event.commit _ =>
           match prev with
           | some p => isConfirmEvent p
           | none => false
       | _ => true)
      && commitsAfterConfirm (some e) rest

theorem commitLoop_commit_discipline (gens : List (Except String (List Char))) :
    ∀ (choices : List Nat) (scr : Except String Unit) (prev : Option Event),
      countCommits (commitLoop scr gens choices).2 ≤ 1 ∧
        commitsAfterConfirm prev (commitLoop scr gens choices).2 = true := by
  induction gens with
  | nil =>
    intro choices scr prev
    simp [commitLoop, countCommits, commitsAfterConfirm]
  | cons g gs ih =>
    intro choices scr prev
    cases g with
    | error e =>
      simp [commitLoop, countCommits, commitsAfterConfirm]
    | ok msg =>
      match choices with
      | [] => simp [commitLoop, countCommits, commitsAfterConfirm]
      | 0 :: cs =>
        have h := ih cs scr (some (Event.mainChoice 0))
        simpa [commitLoop, countCommits, commitsAfterConfirm] using h
      | [1] => simp [commitLoop, countCommits, commitsAfterConfirm]
      | [1, tIdx] => simp [commitLoop, countCommits, commitsAfterConfirm]
      | 1 :: tIdx :: 0 :: cs =>
        simp [commitLoop, countCommits, commitsAfterConfirm, isConfirmEvent]
      | 1 :: tIdx :: 1 :: cs =>
        have h := ih cs scr (some (Event.confirmChoice 1))
        simpa [commitLoop, countCommits, commitsAfterConfirm] using h
      | 1 :: tIdx :: (cc + 2) :: cs =>
        simp [commitLoop, countCommits, commitsAfterConfirm]
      | 2 :: cs =>
        simp [commitLoop, countCommits, commitsAfterConfirm, isConfirmEvent]
      | (c + 3) :: cs =>
        simp [commitLoop, countCommits, commitsAfterConfirm]

/-- C2: in every run of the commit-message flow, `stage_and_commit` is
invoked at most once, and only immediately following a `Confirm` selection
(main-menu index 2 `Stage and commit`, or nested confirmation index 0
`Confirm and commit`); `Regenerate`, `Start over` and `Cancel` never invoke
it. -/
theorem stage_and_commit_once (diffRes : Except String String) (scr : Except String Unit)
    (gens : List (Except String (List Char))) (choices : List Nat) :
    countCommits (handle_commit_message diffRes scr gens choices).2 ≤ 1 ∧
      commitsAfterConfirm none (handle_commit_message diffRes scr gens choices).2 = true := by
  cases diffRes with
  | ok d => exact commitLoop_commit_discipline gens choices scr none
  | error e =>
    by_cases h : e = "No changes to commit" <;>
      simp [handle_commit_message, h, countCommits, commitsAfterConfirm]

/-- C3: with zero pending changes (`get_diff` fails with
`"No changes to commit"`), the commit-message flow succeeds with the benign
clean status, never calls the generation backend, and never calls
`stage_and_commit`. -/
theorem no_changes_clean_status (scr : Except String Unit)
    (gens : List (Except String (List Char))) (choices : List Nat) :
    handle_commit_message (Except.error "No changes to commit") scr gens choices =
        (Except.ok (), [Event.cleanStatus]) ∧
      Event.genCalled ∉ (handle_commit_message (Except.error "No changes to commit")
        scr gens choices).2 ∧
      ∀ m, Event.commit m ∉ (handle_commit_message (Except.error "No changes to commit")
        scr gens choices).2 := by
  refine ⟨by simp [handle_commit_message], ?_, ?_⟩ <;> simp [handle_commit_message]

/-- One entry of `config.analyze_changes`' result. -/
structure FileAnalysis where
  path : String
  explanation : String

/-- `handle_file_analysis` (src/modes.rs lines 104–131): the analysis
results are rendered on success; on failure the error is benign exactly when
its display text is `"No changes to commit"`.  The boolean records whether
the clean-repository status was printed. -/
def handle_file_analysis (result : Except String (List FileAnalysis)) :
    Except String Unit × Bool :=
  match result with
  | Except.ok _ => (Except.ok (), false)
  | Except.error e =>
      if e = "No changes to commit" then (Except.ok (), true)
      else (Except.error e, false)

/-- C10: both flows recognize the benign case solely by exact string
equality of the error's display text with `"No changes to commit"`; they
succeed exactly on that text, and any other error is propagated unchanged. -/
theorem no_changes_exact_string_match (e : String) (scr : Except String Unit)
    (gens : List (Except String (List Char))) (choices : List Nat) :
    ((handle_commit_message (Except.error e) scr gens choices).1 = Except.ok () ↔
        e = "No changes to commit") ∧
      (e ≠ "No changes to commit" →
        handle_commit_message (Except.error e) scr gens choices = (Except.error e, [])) ∧
      ((handle_file_analysis (Except.error e)).1 = Except.ok () ↔
        e = "No changes to commit") ∧
      (e ≠ "No changes to commit" →
        handle_file_analysis (Except.error e) = (Except.error e, false)) := by
  by_cases h : e = "No changes to commit" <;>
    simp [handle_commit_message, handle_file_analysis, h]

/-- C10 witness: a genuine repository-access error is propagated unchanged
by both flows. -/
theorem no_changes_exact_string_match_witness :
    ("fatal: repository access error" : String) ≠ "No changes to commit" ∧
      handle_commit_message (Except.error "fatal: repository access error")
          (Except.ok ()) [] [] = (Except.error "fatal: repository access error", []) ∧
      handle_file_analysis (Except.error "fatal: repository access error") =
        (Except.error "fatal: repository access error", false) :=
  ⟨by decide,
   (no_changes_exact_string_match "fatal: repository access error"
      (Except.ok ()) [] []).2.1 (by decide),
   (no_changes_exact_string_match "fatal: repository access error"
      (Except.ok ()) [] []).2.2.2 (by decide)⟩

/-- The `git::ContributorStats` record as used by `modes.rs`.  The Rust
`HashSet` (`files_changed`) and `HashMap` (`file_types`) are modelled as
lists in their iteration order. -/
structure ContributorStats where
  name : String
  email : String
  commit_count : Nat
  additions : Nat
  deletions : Nat
  files_changed : List String
  most_modified_files : List (String × Nat)
  file_types : List (String × Nat)
  largest_commits : List (Nat × Nat × String)

instance : Inhabited ContributorStats :=
  ⟨⟨"", "", 0, 0, 0, [], [], [], []⟩⟩

/-- Body of the `### Most frequently modified files` section:
`contributor.most_modified_files.iter().map(...).join("\n")`. -/
def mostModifiedBody (c : ContributorStats) : String :=
  String.intercalate "\n" (c.most_modified_files.map
    (fun p => "- " ++ p.1 ++ " (" ++ toString p.2 ++ " modifications)"))

/-- Body of the `### File type distribution` section. -/
def fileTypesBody (c : ContributorStats) : String :=
  String.intercalate "\n" (c.file_types.map
    (fun p => "- " ++ p.1 ++ ": " ++ toString p.2 ++ " files"))

/-- Body of the `### Largest contributions` section. -/
def largestBody (c : ContributorStats) : String :=
  String.intercalate "\n" (c.largest_commits.map
    (fun t => "- +" ++ toString t.1 ++ " -" ++ toString t.2.1 ++ " : " ++ t.2.2))

/-- Body of the `### Recent commits` section:
`commits.iter().take(5).map(...).join("\n")`. -/
def recentBody (commits : List String) : String :=
  String.intercalate "\n" ((commits.take 5).map (fun s => "- " ++ s))

/-- Body of the `### Modified files` section. -/
def filesBody (c : ContributorStats) : String :=
  String.intercalate "\n" (c.files_changed.map (fun f => "- " ++ f))

/-- The report template of `format_contributor_stats`
(src/modes.rs lines 207–273), with `commits` the list obtained from
`git::get_contributor_commits`. -/
def format_contributor_stats (c : ContributorStats) (commits : List String) : String :=
  "## Contributor: " ++ c.name ++ " <" ++ c.email ++
    ">\n\n### Statistics\n- Total commits: " ++ toString c.commit_count ++
    "\n- Lines added: " ++ toString c.additions ++
    "\n- Lines deleted: " ++ toString c.deletions ++
    "\n- Files modified: " ++ toString c.files_changed.length ++
    "\n\n### Most frequently modified files\n" ++ mostModifiedBody c ++
    "\n\n### File type distribution\n" ++ fileTypesBody c ++
    "\n\n### Largest contributions\n" ++ largestBody c ++
    "\n\n### Recent commits\n" ++ recentBody commits ++
    "\n\n### Modified files\n" ++ filesBody c

theorem strAppendAssoc (a b c : String) : a ++ b ++ c = a ++ (b ++ c) := by
  cases a with
  | mk la =>
    cases b with
    | mk lb =>
      cases c with
      | mk lc =>
        show String.mk (la ++ lb ++ lc) = String.mk (la ++ (lb ++ lc))
        rw [List.append_assoc]

/-- C7: the report degrades gracefully on empty inputs — every section
header is present in the report unconditionally (with its body following),
and whenever one of `most_modified_files`, `file_types`, `largest_commits`,
`files_changed` is empty the corresponding section body is the empty string:
the header is kept with an empty body rather than omitted. -/
theorem format_empty_sections (c : ContributorStats) (commits : List String) :
    (∃ a b, format_contributor_stats c commits =
        a ++ "\n\n### Most frequently modified files\n" ++ mostModifiedBody c ++
          "\n\n### File type distribution\n" ++ b) ∧
      (∃ a b, format_contributor_stats c commits =
        a ++ "\n\n### File type distribution\n" ++ fileTypesBody c ++
          "\n\n### Largest contributions\n" ++ b) ∧
      (∃ a b, format_contributor_stats c commits =
        a ++ "\n\n### Largest contributions\n" ++ largestBody c ++
          "\n\n### Recent commits\n" ++ b) ∧
      (∃ a, format_contributor_stats c commits =
        a ++ "\n\n### Modified files\n" ++ filesBody c) ∧
      (c.most_modified_files = [] → mostModifiedBody c = "") ∧
      (c.file_types = [] → fileTypesBody c = "") ∧
      (c.largest_commits = [] → largestBody c = "") ∧
      (c.files_changed = [] → filesBody c = "") := by
  refine ⟨⟨?_, ?_, ?_⟩, ⟨?_, ?_, ?_⟩, ⟨?_, ?_, ?_⟩, ⟨?_, ?_⟩, ?_, ?_, ?_, ?_⟩
  case _ => exact "## Contributor: " ++ c.name ++ " <" ++ c.email ++
    ">\n\n### Statistics\n- Total commits: " ++ toString c.commit_count ++
    "\n- Lines added: " ++ toString c.additions ++
    "\n- Lines deleted: " ++ toString c.deletions ++
    "\n- Files modified: " ++ toString c.files_changed.length
  case _ => exact fileTypesBody c ++ "\n\n### Largest contributions\n" ++ largestBody c ++
    "\n\n### Recent commits\n" ++ recentBody commits ++ "\n\n### Modified files\n" ++ filesBody c
  case _ => simp [format_contributor_stats, strAppendAssoc]
  case _ => exact "## Contributor: " ++ c.name ++ " <" ++ c.email ++
    ">\n\n### Statistics\n- Total commits: " ++ toString c.commit_count ++
    "\n- Lines added: " ++ toString c.additions ++
    "\n- Lines deleted: " ++ toString c.deletions ++
    "\n- Files modified: " ++ toString c.files_changed.length ++
    "\n\n### Most frequently modified files\n" ++ mostModifiedBody c
  case _ => exact largestBody c ++ "\n\n### Recent commits\n" ++ recentBody commits ++
    "\n\n### Modified files\n" ++ filesBody c
  case _ => simp [format_contributor_stats, strAppendAssoc]
  case _ => exact "## Contributor: " ++ c.name ++ " <" ++ c.email ++
    ">\n\n### Statistics\n- Total commits: " ++ toString c.commit_count ++
    "\n- Lines added: " ++ toString c.additions ++
    "\n- Lines deleted: " ++ toString c.deletions ++
    "\n- Files modified: " ++ toString c.files_changed.length ++
    "\n\n### Most frequently modified files\n" ++ mostModifiedBody c ++
    "\n\n### File type distribution\n" ++ fileTypesBody c
  case _ => exact recentBody commits ++ "\n\n### Modified files\n" ++ filesBody c
  case _ => simp [format_contributor_stats, strAppendAssoc]
  case _ => exact "## Contributor: " ++ c.name ++ " <" ++ c.email ++
    ">\n\n### Statistics\n- Total commits: " ++ toString c.commit_count ++
    "\n- Lines added: " ++ toString c.additions ++
    "\n- Lines deleted: " ++ toString c.deletions ++
    "\n- Files modified: " ++ toString c.files_changed.length ++
    "\n\n### Most frequently modified files\n" ++ mostModifiedBody c ++
    "\n\n### File type distribution\n" ++ fileTypesBody c ++
    "\n\n### Largest contributions\n" ++ largestBody c ++
    "\n\n### Recent commits\n" ++ recentBody commits
  case _ => simp [format_contributor_stats, strAppendAssoc]
  case _ => intro h; simp [mostModifiedBody, h, String.intercalate]
  case _ => intro h; simp [fileTypesBody, h, String.intercalate]
  case _ => intro h; simp [largestBody, h, String.intercalate]
  case _ => intro h; simp [filesBody, h, String.intercalate]

/-- A contributor record with no recorded activity, exercising the
empty-section cases of the formatter. -/
def emptyContributor : ContributorStats :=
  ⟨"Alice", "alice@example.com", 0, 0, 0, [], [], [], []⟩

/-- C7 witness: on a contributor with empty lists every section body is
empty while the report is still decomposed around each header. -/
theorem format_empty_sections_witness :
    (emptyContributor.most_modified_files = [] ∧ mostModifiedBody emptyContributor = "") ∧
      (emptyContributor.file_types = [] ∧ fileTypesBody emptyContributor = "") ∧
      (emptyContributor.largest_commits = [] ∧ largestBody emptyContributor = "") ∧
      (emptyContributor.files_changed = [] ∧ filesBody emptyContributor = "") :=
  ⟨⟨rfl, (format_empty_sections emptyContributor []).2.2.2.2.1 rfl⟩,
   ⟨rfl, (format_empty_sections emptyContributor []).2.2.2.2.2.1 rfl⟩,
   ⟨rfl, (format_empty_sections emptyContributor []).2.2.2.2.2.2.1 rfl⟩,
   ⟨rfl, (format_empty_sections emptyContributor []).2.2.2.2.2.2.2 rfl⟩⟩

/-- C8: the `### Recent commits` section of the report holds exactly the
first `min 5 n` commit summaries, in the order returned by
`get_contributor_commits` — at most 5 entries however many commits exist. -/
theorem recent_commits_bounded (c : ContributorStats) (commits : List String) :
    (∃ a, format_contributor_stats c commits =
        a ++ "\n\n### Recent commits\n" ++ recentBody commits ++
          "\n\n### Modified files\n" ++ filesBody c) ∧
      recentBody commits =
        String.intercalate "\n" ((commits.take 5).map (fun s => "- " ++ s)) ∧
      ((commits.take 5).map (fun s => "- " ++ s)).length ≤ 5 ∧
      (∀ i, i < 5 → (commits.take 5)[i]? = commits[i]?) := by
  refine ⟨⟨?_, ?_⟩, rfl, ?_, ?_⟩
  case _ => exact "## Contributor: " ++ c.name ++ " <" ++ c.email ++
    ">\n\n### Statistics\n- Total commits: " ++ toString c.commit_count ++
    "\n- Lines added: " ++ toString c.additions ++
    "\n- Lines deleted: " ++ toString c.deletions ++
    "\n- Files modified: " ++ toString c.files_changed.length ++
    "\n\n### Most frequently modified files\n" ++ mostModifiedBody c ++
    "\n\n### File type distribution\n" ++ fileTypesBody c ++
    "\n\n### Largest contributions\n" ++ largestBody c
  case _ => simp [format_contributor_stats, strAppendAssoc]
  case _ =>
    simp only [List.length_map, List.length_take]
    exact Nat.min_le_left 5 commits.length
  case _ =>
    intro i hi
    exact List.getElem?_take_of_lt hi

/-- C8 witness: with seven commits only the first five appear, in order. -/
theorem recent_commits_bounded_witness :
    (0 : Nat) < 5 ∧
      ((["c1", "c2", "c3", "c4", "c5", "c6", "c7"].take 5)[0]? =
        (["c1", "c2", "c3", "c4", "c5", "c6", "c7"] : List String)[0]?) ∧
      recentBody ["c1", "c2", "c3", "c4", "c5", "c6", "c7"] =
        "- c1\n- c2\n- c3\n- c4\n- c5" :=
  ⟨by decide,
   (recent_commits_bounded emptyContributor
      ["c1", "c2", "c3", "c4", "c5", "c6", "c7"]).2.2.2 0 (by decide),
   by decide⟩

/-- The selection list of `handle_contributor_analysis`
(src/modes.rs lines 137–143): one formatted line per contributor, with the
exit sentinel pushed last. -/
def contributorItems (contribs : List ContributorStats) : List String :=
  (contribs.map (fun c =>
    c.name ++ " <" ++ c.email ++ "> (" ++ toString c.commit_count ++ " commits)")) ++
    ["❌ Exit"]

/-- Observable event of the contributor browse loop: one
`config.analyze_contributor` backend invocation, recorded with the report it
was given. -/
inductive BEvent where
  | analyzeCalled : String → BEvent
deriving DecidableEq

/-- The `loop` of `handle_contributor_analysis` (src/modes.rs lines 145–165)
as an interpreter.  `getCommits` models `git::get_contributor_commits` (by
name and email); the `List Nat` argument lists the successive indices
returned by `ui::show_selection_menu`, and the `List (Except String String)`
argument the successive results of `config.analyze_contributor`.
`show_selection_menu` only returns an index below the option count, so in
the non-exit branch the selection indexes a real contributor; exhausted
input lists end the run with a distinguished model error. -/
def browseLoop (getCommits : String → String → List String)
    (contribs : List ContributorStats) :
    List Nat → List (Except String String) → Except String Unit × List BEvent
  | [], _ => (Except.error "model: out of input", [])
  | sel :: sels, analyses =>
    if sel = (contributorItems contribs).length - 1 then
      (Except.ok (), [])
    else
      let contributor := contribs.getD sel default
      let stats := format_contributor_stats contributor
        (getCommits contributor.name contributor.email)
      match analyses with
      | [] => (Except.error "model: out of input", [])
      | Except.error e :: _ => (Except.error e, [BEvent.analyzeCalled stats])
      | Except.ok _ :: rest =>
        let r := browseLoop getCommits contribs sels rest
        (r.1, BEvent.analyzeCalled stats :: r.2)

theorem contributorItems_length (contribs : List ContributorStats) :
    (contributorItems contribs).length = contribs.length + 1 := by
  simp [contributorItems]

/-- C5: the exit sentinel is always the last entry of the selection list,
its index equals the number of real contributors, and selecting it
terminates the browse loop at once with an empty trace — in particular
`analyze_contributor` is never invoked. -/
theorem exit_sentinel_terminates (getCommits : String → String → List String)
    (contribs : List ContributorStats) (sels : List Nat)
    (analyses : List (Except String String)) :
    (contributorItems contribs).getLast? = some "❌ Exit" ∧
      (contributorItems contribs).length - 1 = contribs.length ∧
      browseLoop getCommits contribs (contribs.length :: sels) analyses =
        (Except.ok (), []) := by
  refine ⟨?_, ?_, ?_⟩
  · simp [contributorItems]
  · simp [contributorItems_length]
  · simp [browseLoop, contributorItems_length]

/-- C6: a failure of the `analyze_contributor` backend call in any
`DetailView` pass aborts the whole browsing session with that very error:
after any number of successful contributor views, the first failing view is
the last event of the run and the loop returns the error (the failure is
never skipped to continue with the next contributor). -/
theorem analyze_failure_aborts (getCommits : String → String → List String)
    (contribs : List ContributorStats) (e : String) :
    ∀ (ps : List Nat) (oks : List String) (sel : Nat) (sels : List Nat)
      (rest : List (Except String String)),
      ps.length = oks.length →
      (∀ x ∈ ps, x < contribs.length) →
      sel < contribs.length →
      (browseLoop getCommits contribs (ps ++ sel :: sels)
          (oks.map Except.ok ++ Except.error e :: rest)).1 = Except.error e ∧
        (browseLoop getCommits contribs (ps ++ sel :: sels)
          (oks.map Except.ok ++ Except.error e :: rest)).2.length = ps.length + 1 := by
  intro ps
  induction ps with
  | nil =>
    intro oks sel sels rest hlen hps hsel
    have hoks : oks = [] := List.eq_nil_of_length_eq_zero hlen.symm
    have hne : ¬sel = (contributorItems contribs).length - 1 := by
      rw [contributorItems_length]
      omega
    subst hoks
    simp [browseLoop, hne]
  | cons p ps' ih =>
    intro oks sel sels rest hlen hps hsel
    match oks with
    | [] => simp at hlen
    | o :: oks' =>
      have hp : p < contribs.length := hps p (List.mem_cons_self p ps')
      have hps' : ∀ x ∈ ps', x < contribs.length :=
        fun x hx => hps x (List.mem_cons_of_mem p hx)
      have hlen' : ps'.length = oks'.length := by
        simpa using hlen
      have hne : ¬p = (contributorItems contribs).length - 1 := by
        rw [contributorItems_length]
        omega
      have h := ih oks' sel sels rest hlen' hps' hsel
      simp only [List.cons_append, List.map_cons, browseLoop, hne, if_false]
      constructor
      · exact h.1
      · simp only [List.length_cons, List.append_eq, h.2]

/-- C6 witness: with one contributor, selecting it while the backend fails
aborts the session at once with that error after a single
`analyze_contributor` call. -/
theorem analyze_failure_aborts_witness :
    ([] : List Nat).length = ([] : List String).length ∧
      (∀ x ∈ ([] : List Nat), x < [emptyContributor].length) ∧
      0 < [emptyContributor].length ∧
      (browseLoop (fun _ _ => []) [emptyContributor] [0]
        [Except.error "backend failure"]).1 = Except.error "backend failure" ∧
      (browseLoop (fun _ _ => []) [emptyContributor] [0]
        [Except.error "backend failure"]).2.length = 1 :=
  ⟨rfl, by simp, by decide,
   (analyze_failure_aborts (fun _ _ => []) [emptyContributor] "backend failure"
      [] [] 0 [] [] rfl (by simp) (by decide)).1,
   (analyze_failure_aborts (fun _ _ => []) [emptyContributor] "backend failure"
      [] [] 0 [] [] rfl (by simp) (by decide)).2⟩
